import Mathlib

/-!
# Verification of windtools/amrwind/post_processing.py

A shallow embedding of the sampling post-processing module of the
`windtools` repository, together with theorems settling the specified
properties of its operations: the plane-sampler reshaping pipeline, the
normal-dependent dimension ordering, group metadata extraction, datetime
attachment with fluctuation fields, output-path dispatch, time-range
resolution, sampler-type dispatch, the VTK export precondition, and the
`read_data` loop.
-/

set_option maxHeartbeats 1000000

namespace Windtools

/-! ## Plane reshaping (lines 190-192 of post_processing.py)

The raw sampler arrays are stored flat in row-major (C) order with axes
(time, z, y, x); the code reshapes them to `(ndt, nz, ny, nx)` and applies
numpy `.T`, which reverses the axis order. -/

/-- A four-dimensional numpy-style array, modelled as a shape together with
a total indexing function.  Only shape and indexing behaviour are needed. -/
structure Arr4 (α : Type) where
  shape : Nat × Nat × Nat × Nat
  data : Nat → Nat → Nat → Nat → α

/-- `np.reshape(flat, (d0, d1, d2, d3))` of a row-major flat array: entry
`(i0, i1, i2, i3)` is the flat element at `((i0*d1 + i1)*d2 + i2)*d3 + i3`. -/
def reshape4 {α : Type} (d0 d1 d2 d3 : Nat) (flat : Nat → α) : Arr4 α :=
  { shape := (d0, d1, d2, d3)
    data := fun i0 i1 i2 i3 => flat (((i0 * d1 + i1) * d2 + i2) * d3 + i3) }

/-- numpy `.T` on a four-dimensional array: reverses the axis order, both in
the shape and in the indexing. -/
def transposeT {α : Type} (A : Arr4 α) : Arr4 α :=
  { shape := (A.shape.2.2.2, A.shape.2.2.1, A.shape.2.1, A.shape.1)
    data := fun j0 j1 j2 j3 => A.data j3 j2 j1 j0 }

/-- The decoding `np.reshape(raw, (ndt, nz, ny, nx)).T` applied to each
velocity component in `_read_plane_sampler` (lines 190-192). -/
def planeReshape {α : Type} (nx ny nz ndt : Nat) (flat : Nat → α) : Arr4 α :=
  transposeT (reshape4 ndt nz ny nx flat)

/-- Flat position of the sample with spatial index `(ix, iy, iz)` and time
index `it` in the raw (time, z, y, x) row-major storage layout. -/
def rawFlatIdx (nx ny nz it iz iy ix : Nat) : Nat :=
  it * (nz * ny * nx) + iz * (ny * nx) + iy * nx + ix

lemma radix_step {m a : Nat} (b : Nat) {c : Nat} (ha : a < m) (hb : b < c) :
    b * m + a < c * m := by
  calc b * m + a < b * m + m := by omega
    _ = (b + 1) * m := by ring
    _ ≤ c * m := Nat.mul_le_mul_right m hb

lemma radix_pair_eq {m a c : Nat} (b d : Nat) (ha : a < m) (hc : c < m)
    (h : b * m + a = d * m + c) : b = d ∧ a = c := by
  have hm : 0 < m := Nat.pos_of_ne_zero (by omega)
  have hdiv : ∀ x y : Nat, y < m → (x * m + y) / m = x := by
    intro x y hy
    rw [Nat.mul_comm x m, Nat.mul_add_div hm, Nat.div_eq_of_lt hy, Nat.add_zero]
  have hmod : ∀ x y : Nat, y < m → (x * m + y) % m = y := by
    intro x y hy
    rw [Nat.mul_comm x m, Nat.mul_add_mod, Nat.mod_eq_of_lt hy]
  constructor
  · have := congrArg (· / m) h
    simpa [hdiv b a ha, hdiv d c hc] using this
  · have := congrArg (· % m) h
    simpa [hmod b a ha, hmod d c hc] using this

lemma rawFlatIdx_nest (nx ny nz it iz iy ix : Nat) :
    rawFlatIdx nx ny nz it iz iy ix
      = it * (nz * (ny * nx)) + (iz * (ny * nx) + (iy * nx + ix)) := by
  unfold rawFlatIdx; ring

lemma rawFlatIdx_lt {nx ny nz ndt it iz iy ix : Nat}
    (hx : ix < nx) (hy : iy < ny) (hz : iz < nz) (ht : it < ndt) :
    rawFlatIdx nx ny nz it iz iy ix < ndt * nx * ny * nz := by
  have h1 : iy * nx + ix < ny * nx := radix_step iy hx hy
  have h2 : iz * (ny * nx) + (iy * nx + ix) < nz * (ny * nx) := radix_step iz h1 hz
  have h3 : it * (nz * (ny * nx)) + (iz * (ny * nx) + (iy * nx + ix))
      < ndt * (nz * (ny * nx)) := radix_step it h2 ht
  have he : ndt * (nz * (ny * nx)) = ndt * nx * ny * nz := by ring
  rw [rawFlatIdx_nest]
  omega

lemma rawFlatIdx_inj {nx ny nz : Nat} {it1 iz1 iy1 ix1 it2 iz2 iy2 ix2 : Nat}
    (hx1 : ix1 < nx) (hy1 : iy1 < ny) (hz1 : iz1 < nz)
    (hx2 : ix2 < nx) (hy2 : iy2 < ny) (hz2 : iz2 < nz)
    (h : rawFlatIdx nx ny nz it1 iz1 iy1 ix1 = rawFlatIdx nx ny nz it2 iz2 iy2 ix2) :
    it1 = it2 ∧ iz1 = iz2 ∧ iy1 = iy2 ∧ ix1 = ix2 := by
  rw [rawFlatIdx_nest, rawFlatIdx_nest] at h
  have hr1 : iy1 * nx + ix1 < ny * nx := radix_step iy1 hx1 hy1
  have hr1b : iy2 * nx + ix2 < ny * nx := radix_step iy2 hx2 hy2
  have hr2 : iz1 * (ny * nx) + (iy1 * nx + ix1) < nz * (ny * nx) := radix_step iz1 hr1 hz1
  have hr2b : iz2 * (ny * nx) + (iy2 * nx + ix2) < nz * (ny * nx) := radix_step iz2 hr1b hz2
  obtain ⟨hts, hrest⟩ := radix_pair_eq it1 it2 hr2 hr2b h
  obtain ⟨hzs, hrest2⟩ := radix_pair_eq iz1 iz2 hr1 hr1b hrest
  obtain ⟨hys, hxs⟩ := radix_pair_eq iy1 iy2 hx1 hx2 hrest2
  exact ⟨hts, hzs, hys, hxs⟩

lemma rawFlatIdx_decode {nx ny nz ndt k : Nat} (hk : k < ndt * nx * ny * nz) :
    rawFlatIdx nx ny nz (k / (nx * ny * nz)) (k / (nx * ny) % nz) (k / nx % ny) (k % nx)
      = k ∧ k % nx < nx ∧ k / nx % ny < ny ∧ k / (nx * ny) % nz < nz
      ∧ k / (nx * ny * nz) < ndt := by
  have htot : 0 < ndt * nx * ny * nz := Nat.lt_of_le_of_lt (Nat.zero_le k) hk
  have hnx : 0 < nx := by
    rcases Nat.eq_zero_or_pos nx with h | h
    · subst h; simp at htot
    · exact h
  have hny : 0 < ny := by
    rcases Nat.eq_zero_or_pos ny with h | h
    · subst h; simp at htot
    · exact h
  have hnz : 0 < nz := by
    rcases Nat.eq_zero_or_pos nz with h | h
    · subst h; simp at htot
    · exact h
  have e1 : k / (nx * ny) = k / nx / ny := (Nat.div_div_eq_div_mul k nx ny).symm
  have e2 : k / (nx * ny * nz) = k / nx / ny / nz := by
    rw [← Nat.div_div_eq_div_mul, ← Nat.div_div_eq_div_mul]
  have h1 : k / nx * nx + k % nx = k := Nat.div_add_mod' k nx
  have h2 : k / nx / ny * ny + k / nx % ny = k / nx := Nat.div_add_mod' (k / nx) ny
  have h3 : k / nx / ny / nz * nz + k / nx / ny % nz = k / nx / ny :=
    Nat.div_add_mod' (k / nx / ny) nz
  refine ⟨?_, Nat.mod_lt k hnx, Nat.mod_lt (k / nx) hny, ?_, ?_⟩
  · rw [rawFlatIdx_nest, e1, e2]
    calc k / nx / ny / nz * (nz * (ny * nx))
          + (k / nx / ny % nz * (ny * nx) + (k / nx % ny * nx + k % nx))
        = ((k / nx / ny / nz * nz + k / nx / ny % nz) * ny + k / nx % ny) * nx
            + k % nx := by ring
      _ = (k / nx / ny * ny + k / nx % ny) * nx + k % nx := by rw [h3]
      _ = k / nx * nx + k % nx := by rw [h2]
      _ = k := h1
  · rw [e1]; exact Nat.mod_lt (k / nx / ny) hnz
  · have hprod : 0 < nx * ny * nz := by positivity
    rw [Nat.div_lt_iff_lt_mul hprod]
    have he : ndt * (nx * ny * nz) = ndt * nx * ny * nz := by ring
    omega

/-- C1: the plane-reshaper decoding (reshape the raw flat array to
`(ndt, nz, ny, nx)` in row-major order, then transpose reversing the axis
order) yields shape `(nx, ny, nz, ndt)`; the value at `(ix, iy, iz, it)` is
the raw flat element at position `it*(nz*ny*nx) + iz*(ny*nx) + iy*nx + ix`;
and for a raw array of exactly `ndt*nx*ny*nz` elements this indexing map is
a bijection between valid coordinates and raw positions, so every raw
element appears exactly once in the labeled output. -/
theorem plane_reshaper_bijection {β : Type} (nx ny nz ndt : Nat) (raw : List β)
    (hlen : raw.length = ndt * nx * ny * nz) :
    (planeReshape nx ny nz ndt (fun i => raw[i]?)).shape = (nx, ny, nz, ndt) ∧
    (∀ ix iy iz it, ix < nx → iy < ny → iz < nz → it < ndt →
      (planeReshape nx ny nz ndt (fun i => raw[i]?)).data ix iy iz it
        = raw[rawFlatIdx nx ny nz it iz iy ix]?) ∧
    (∀ k, k < raw.length →
      ∃! q : Fin nx × Fin ny × Fin nz × Fin ndt,
        rawFlatIdx nx ny nz q.2.2.2.val q.2.2.1.val q.2.1.val q.1.val = k) := by
  refine ⟨rfl, ?_, ?_⟩
  · intro ix iy iz it _ _ _ _
    show raw[(((it * nz + iz) * ny + iy) * nx + ix)]? = _
    congr 1
    unfold rawFlatIdx
    ring
  · intro k hk
    rw [hlen] at hk
    obtain ⟨henc, hxb, hyb, hzb, htb⟩ := rawFlatIdx_decode hk
    refine ⟨⟨⟨k % nx, hxb⟩, ⟨k / nx % ny, hyb⟩, ⟨k / (nx * ny) % nz, hzb⟩,
      ⟨k / (nx * ny * nz), htb⟩⟩, henc, ?_⟩
    rintro ⟨⟨x2, hx2⟩, ⟨y2, hy2⟩, ⟨z2, hz2⟩, ⟨t2, ht2⟩⟩ hq
    have heq : rawFlatIdx nx ny nz t2 z2 y2 x2
        = rawFlatIdx nx ny nz (k / (nx * ny * nz)) (k / (nx * ny) % nz)
            (k / nx % ny) (k % nx) := by
      rw [henc]; exact hq
    obtain ⟨ht, hz, hy, hx⟩ := rawFlatIdx_inj hx2 hy2 hz2 hxb hyb hzb heq
    simp only [Prod.mk.injEq, Fin.mk.injEq]
    exact ⟨hx, hy, hz, ht⟩

/-- Witness for C1 at `nx = ny = nz = 2`, `ndt = 3`, raw array `0..23`:
the decoded value at `(ix, iy, iz, it) = (1, 0, 1, 2)` is raw element 21,
since `2*(2*2*2) + 1*(2*2) + 0*2 + 1 = 21`. -/
theorem plane_reshaper_bijection_witness :
    (planeReshape 2 2 2 3 (fun i => (List.range 24)[i]?)).data 1 0 1 2 = some 21 := by
  have h := (plane_reshaper_bijection 2 2 2 3 (List.range 24) (by decide)).2.1
    1 0 1 2 (by decide) (by decide) (by decide) (by decide)
  rw [h]
  decide

/-! ## Group metadata: normal detection (getGroupProperties, lines 84-86) -/

/-- Normal-axis detection in `getGroupProperties`: three independent `if`
statements assign `self.normal` in sequence (no `elif`), so a later match
overwrites an earlier one.  `normal0` is the value the attribute held before
the call (`none` when unset). -/
def normalOf (axis3 : Int × Int × Int) (normal0 : Option String) : Option String :=
  let n1 := if axis3.1 = 1 then some "x" else normal0
  let n2 := if axis3.2.1 = 1 then some "y" else n1
  if axis3.2.2 = 1 then some "z" else n2

/-- C3 counterexample: for `axis3 = (1, 1, 0)` the code assigns the label of
the last matching component, so the result is "y", not the first-match
label "x" the claim asserts. -/
theorem normal_first_match_cex :
    normalOf (1, 1, 0) none = some "y" ∧ normalOf (1, 1, 0) none ≠ some "x" := by
  constructor
  · rfl
  · decide

/-- C3 amended: for every `axis3` vector in which more than one component
equals 1, `getGroupProperties` assigns the normal-axis label of the LAST
component equal to 1 (the three tests run in order x, y, z and each later
match overwrites the earlier assignment): the result is "z" whenever the
z-component is 1, and otherwise "y". -/
theorem normal_last_match (a b c : Int) (normal0 : Option String)
    (h : (a = 1 ∧ b = 1) ∨ (a = 1 ∧ c = 1) ∨ (b = 1 ∧ c = 1)) :
    normalOf (a, b, c) normal0 = some (if c = 1 then "z" else "y") := by
  rcases h with ⟨h1, h2⟩ | ⟨h1, h2⟩ | ⟨h1, h2⟩
  · by_cases hc : c = 1 <;> simp_all [normalOf]
  · simp_all [normalOf]
  · simp_all [normalOf]

/-- Witness for C3 amended at `axis3 = (1, 0, 1)`: the z-component is 1, so
the assigned normal is "z". -/
theorem normal_last_match_witness :
    normalOf (1, 0, 1) none = some (if (1 : Int) = 1 then "z" else "y") :=
  normal_last_match 1 0 1 none (Or.inr (Or.inl ⟨rfl, rfl⟩))

/-! ## Dimension ordering from the plane normal (lines 195-198) -/

/-- The `ordereddims` selection in `_read_plane_sampler`: an `elif` chain on
elementwise equality of `axis3` with [1,0,0], [0,1,0], [0,0,1]; any other
vector raises `ValueError("Unknown normal plane")`. -/
def ordereddims (axis3 : Int × Int × Int) : Except String (List String) :=
  if axis3 = (1, 0, 0) then .ok ["y", "z", "x", "samplingtimestep"]
  else if axis3 = (0, 1, 0) then .ok ["x", "z", "y", "samplingtimestep"]
  else if axis3 = (0, 0, 1) then .ok ["x", "y", "z", "samplingtimestep"]
  else .error "Unknown normal plane"

/-- C2: the labeled dimension order is determined by `axis3`:
[1,0,0] gives (y, z, x, samplingtimestep), [0,1,0] gives
(x, z, y, samplingtimestep), [0,0,1] gives (x, y, z, samplingtimestep), any
other vector raises the fatal error; and in every successful case the
time-adjacent spatial slot (index 2) carries exactly the normal-axis label
that `getGroupProperties` assigns for that vector. -/
theorem ordereddims_normal_spec :
    ordereddims (1, 0, 0) = .ok ["y", "z", "x", "samplingtimestep"] ∧
    ordereddims (0, 1, 0) = .ok ["x", "z", "y", "samplingtimestep"] ∧
    ordereddims (0, 0, 1) = .ok ["x", "y", "z", "samplingtimestep"] ∧
    (∀ v : Int × Int × Int, v ≠ (1, 0, 0) → v ≠ (0, 1, 0) → v ≠ (0, 0, 1) →
      ordereddims v = .error "Unknown normal plane") ∧
    (∀ v l, ordereddims v = .ok l → l[2]? = normalOf v none) := by
  refine ⟨rfl, rfl, rfl, ?_, ?_⟩
  · intro v h1 h2 h3
    unfold ordereddims
    rw [if_neg h1, if_neg h2, if_neg h3]
  · intro v l h
    unfold ordereddims at h
    split_ifs at h with h1 h2 h3
    · rw [Except.ok.injEq] at h
      subst h; subst h1; rfl
    · rw [Except.ok.injEq] at h
      subst h; subst h2; rfl
    · rw [Except.ok.injEq] at h
      subst h; subst h3; rfl

/-- Witness for C2 at the malformed vector `axis3 = (2, 0, 0)`: the read
fails with the unknown-normal error. -/
theorem ordereddims_normal_spec_witness :
    ordereddims (2, 0, 0) = .error "Unknown normal plane" :=
  ordereddims_normal_spec.2.2.2.1 (2, 0, 0) (by decide) (by decide) (by decide)

/-! ## Time-range resolution (lines 179-180) and the time slice -/

/-- The resolution `if ftime == -1: ftime = self.ndt` at the top of
`_read_plane_sampler`. -/
def resolveFtime (ftime : Int) (ndt : Nat) : Int :=
  if ftime = -1 then (ndt : Int) else ftime

/-- Model of the positional slice `slice(start, stop, step)` along a
dimension of length `n`, for nonnegative bounds and a positive `step`: the
selected indices in increasing order. -/
def sliceIdx (n start stop step : Nat) : List Nat :=
  (List.range n).filter fun i =>
    decide (start ≤ i) && decide (i < stop) && decide ((i - start) % step = 0)

/-- C7: for every group and every `itime` and positive `step`,
`ftime = -1` resolves to exactly `ndt`, and the resulting slice selects the
full remaining time range: index `i` is selected iff `itime ≤ i < ndt` and
`i` lies on the stride, independent of `itime` and `step`. -/
theorem ftime_minus_one_full_range (ndt itime step : Nat) (hstep : 0 < step) :
    resolveFtime (-1) ndt = (ndt : Int) ∧
    ∀ i, i ∈ sliceIdx ndt itime (resolveFtime (-1) ndt).toNat step ↔
      (itime ≤ i ∧ i < ndt ∧ (i - itime) % step = 0) := by
  have hres : resolveFtime (-1) ndt = (ndt : Int) := by simp [resolveFtime]
  refine ⟨hres, ?_⟩
  intro i
  rw [hres]
  simp only [Int.toNat_natCast, sliceIdx, List.mem_filter, List.mem_range,
    Bool.and_eq_true, decide_eq_true_eq]
  tauto

/-- Witness for C7 at `ndt = 10`, `itime = 3`, `step = 2`: the resolved end
is 10 and index 7 is selected. -/
theorem ftime_minus_one_full_range_witness :
    resolveFtime (-1) 10 = (10 : Int) ∧
    (7 ∈ sliceIdx 10 3 (resolveFtime (-1) 10).toNat 2 ↔
      (3 ≤ 7 ∧ 7 < 10 ∧ (7 - 3) % 2 = 0)) :=
  ⟨(ftime_minus_one_full_range 10 3 2 (by decide)).1,
   (ftime_minus_one_full_range 10 3 2 (by decide)).2 7⟩

/-! ## Sampler-type dispatch in read_single_group (lines 157-166) -/

/-- Outcome of `read_single_group` as a function of the sampling type:
either the plane decoder runs, or a handler raises `NotImplementedError`,
or the final `else` raises `ValueError(... not recognized)`. -/
inductive ReadOutcome where
  | planeDecoded : ReadOutcome
  | notImplemented : String → ReadOutcome
  | unrecognized : String → ReadOutcome
deriving DecidableEq

/-- The dispatch on `self.sampling_type` in `read_single_group`:
`LineSampler`, `LidarSampler` and `ProbeSampler` reach handlers that raise
`NotImplementedError` (never a silent no-op); `PlaneSampler` is decoded by
`_read_plane_sampler`; any other string raises the not-recognized error. -/
def readSingleGroupDispatch (samplingType : String) : ReadOutcome :=
  if samplingType = "LineSampler" then .notImplemented "LineSampler"
  else if samplingType = "LidarSampler" then .notImplemented "LidarSampler"
  else if samplingType = "PlaneSampler" then .planeDecoded
  else if samplingType = "ProbeSampler" then .notImplemented "ProbeSampler"
  else .unrecognized samplingType

/-- C8: `read_single_group` dispatches on `sampling_type`: Line, Lidar and
Probe samplers raise the explicit not-implemented error and never silently
return; any string outside the four recognized ones raises the fatal
not-recognized error; only `PlaneSampler` is decoded. -/
theorem read_single_group_dispatch_spec :
    readSingleGroupDispatch "LineSampler" = .notImplemented "LineSampler" ∧
    readSingleGroupDispatch "LidarSampler" = .notImplemented "LidarSampler" ∧
    readSingleGroupDispatch "ProbeSampler" = .notImplemented "ProbeSampler" ∧
    readSingleGroupDispatch "PlaneSampler" = .planeDecoded ∧
    ∀ st, st ≠ "LineSampler" → st ≠ "LidarSampler" → st ≠ "PlaneSampler" →
      st ≠ "ProbeSampler" → readSingleGroupDispatch st = .unrecognized st := by
  refine ⟨by decide, by decide, by decide, by decide, ?_⟩
  intro st h1 h2 h3 h4
  simp [readSingleGroupDispatch, h1, h2, h3, h4]

/-- Witness for C8 at the unrecognized sampling type "FooSampler". -/
theorem read_single_group_dispatch_witness :
    readSingleGroupDispatch "FooSampler" = .unrecognized "FooSampler" :=
  read_single_group_dispatch_spec.2.2.2.2 "FooSampler"
    (by decide) (by decide) (by decide) (by decide)

/-! ## Output destination dispatch (lines 223-232) -/

/-- The write performed for a given destination: a chunked zarr store at the
path, a netCDF archive at the path, or a zarr store inside the destination
treated as a directory. -/
inductive SaveAction where
  | zarrAt : String → SaveAction
  | netcdfAt : String → SaveAction
  | zarrInDir : String → SaveAction
deriving DecidableEq

/-- Model of the Python `str.endswith` suffix test on character sequences. -/
def endswith (s suffix : String) : Bool :=
  suffix.data.isSuffixOf s.data

/-- The output branch at the end of `_read_plane_sampler`: with a non-None
`outputPath`, a path ending in ".zarr" is written with `to_zarr`; a path
ending in ".nc." (sic: the source tests the suffix ".nc." with a trailing
dot) is written with `to_netcdf`; any other path is treated as a directory
and `os.path.join(outputPath, group + ".zarr")` is written with `to_zarr`. -/
def savePlaneOutput (outputPath : Option String) (group : String) : Option SaveAction :=
  match outputPath with
  | none => none
  | some p =>
      if endswith p ".zarr" then some (.zarrAt p)
      else if endswith p ".nc." then some (.netcdfAt p)
      else some (.zarrInDir (p ++ "/" ++ group ++ ".zarr"))

/-- C6: behaviour of the output-destination dispatch.  A ".zarr" path is
written as a chunked store at that path, as claimed; but because the source
tests the suffix ".nc." (trailing dot) instead of ".nc", the
netCDF-suffixed path "planes.nc" falls through to the directory branch and
"planes.nc/T1.zarr" is written instead of a netCDF archive at "planes.nc";
only the malformed suffix ".nc." reaches `to_netcdf`. -/
theorem savePlaneOutput_nc_suffix_bug :
    savePlaneOutput (some "planes.zarr") "T1" = some (.zarrAt "planes.zarr") ∧
    savePlaneOutput (some "planes.nc") "T1" = some (.zarrInDir "planes.nc/T1.zarr") ∧
    savePlaneOutput (some "planes.nc.") "T1" = some (.netcdfAt "planes.nc.") := by
  refine ⟨?_, ?_, ?_⟩ <;> decide

/-! ## Sampling.read_data (lines 104-113) -/

/-- The module-level names bound in post_processing.py: the four imports,
the netCDF4 `Dataset` import, the two classes and `addDatetime`.  The name
`read_single_group` is a method of `Sampling`, not a module-level binding. -/
def moduleGlobalNames : List String :=
  ["pd", "xr", "np", "os", "Dataset", "ABLStatistics", "Sampling", "addDatetime"]

/-- The `read_data` loop body: for each group name it evaluates the bare
name `read_single_group` (the source omits the `self.` receiver); Python
resolves a bare name against the local, module and builtin scopes and
raises `NameError` when the name is absent, as it is here.  `callee` stands
for the function the call would invoke had the name resolved. -/
def readDataLoop {α : Type} (callee : String → α) :
    List String → List α → Except String (List α)
  | [], acc => .ok acc
  | g :: rest, acc =>
      if "read_single_group" ∈ moduleGlobalNames then
        readDataLoop callee rest (acc ++ [callee g])
      else .error "NameError: name read_single_group is not defined"

/-- `Sampling.read_data`: builds `ds_all` by iterating `groups_to_read` and
appending the result of each call. -/
def read_data {α : Type} (callee : String → α) (groupsToRead : List String) :
    Except String (List α) :=
  readDataLoop callee groupsToRead []

/-- C10: for every non-empty list of group names, `Sampling.read_data`
raises `NameError` on the first iteration, because the loop body invokes
`read_single_group` without the instance receiver and no module-level
function of that name exists; it never returns a list of datasets. -/
theorem read_data_nameError {α : Type} (callee : String → α)
    (groups : List String) (h : groups ≠ []) :
    read_data callee groups
      = .error "NameError: name read_single_group is not defined" := by
  cases groups with
  | nil => exact absurd rfl h
  | cons g rest =>
      show readDataLoop callee (g :: rest) [] = _
      rw [readDataLoop, if_neg (by decide)]

/-- Witness for C10 at the one-element group list ["p1"]. -/
theorem read_data_nameError_witness :
    read_data (fun _ => (0 : Nat)) ["p1"]
      = .error "NameError: name read_single_group is not defined" :=
  read_data_nameError (fun _ => (0 : Nat)) ["p1"] (by decide)

/-! ## addDatetime (lines 303-338) -/

/-- A sampling dataset as consumed by `addDatetime`: velocity fields over
spatial points `P` and `n` sampling time steps, optional precomputed
per-chunk means, the integer `samplingtimestep` coordinate, and an optional
`time` variable. -/
structure SampDS (P : Type) (n : Nat) where
  u : P → Fin n → ℚ
  v : P → Fin n → ℚ
  w : P → Fin n → ℚ
  umean : Option (P → ℚ)
  vmean : Option (P → ℚ)
  wmean : Option (P → ℚ)
  samplingtimestep : Fin n → ℤ
  time : Option (Fin n → ℚ)

/-- The dataset returned by `addDatetime`: the datetime-labeled time axis
(modelled as rational seconds of offset from the epoch `origin`), the
preserved integer sampling-time-step coordinate, and the optional
fluctuation fields and leftover means. -/
structure TimeDS (P : Type) (n : Nat) where
  u : P → Fin n → ℚ
  v : P → Fin n → ℚ
  w : P → Fin n → ℚ
  time : Fin n → ℚ
  datetime : Fin n → ℚ
  samplingtimestep : Fin n → ℤ
  up : Option (P → Fin n → ℚ)
  vp : Option (P → Fin n → ℚ)
  wp : Option (P → Fin n → ℚ)
  umean : Option (P → ℚ)
  vmean : Option (P → ℚ)
  wmean : Option (P → ℚ)

/-- Temporal mean of a per-point field over the time dimension. -/
def temporalMean {n : Nat} (f : Fin n → ℚ) : ℚ := (∑ i, f i) / n

/-- The part of `addDatetime` that runs after the in-place assignment of the
`time` variable (lines 312-338): rename the time dimension to datetime,
keep the integer sampling-time-step coordinate, and when `computemean` is
set either consume and drop the precomputed per-chunk means (keyed on the
presence of `umean`; reading `vmean` and `wmean` then raises `KeyError`
when they are absent) or compute the temporal mean of each velocity
component, and attach the fluctuation fields `up`, `vp`, `wp`. -/
def addDatetimeResult {P : Type} {n : Nat} (ds : SampDS P n) (timeF : Fin n → ℚ)
    (origin : ℚ) (computemean : Bool) : Except String (TimeDS P n) :=
  let base : TimeDS P n :=
    { u := ds.u, v := ds.v, w := ds.w
      time := timeF
      datetime := fun i => origin + timeF i
      samplingtimestep := ds.samplingtimestep
      up := none, vp := none, wp := none
      umean := ds.umean, vmean := ds.vmean, wmean := ds.wmean }
  match computemean with
  | true =>
    match ds.umean with
    | some meanu =>
        match ds.vmean, ds.wmean with
        | some meanv, some meanw =>
            .ok { base with
                  umean := none, vmean := none, wmean := none
                  up := some fun p i => ds.u p i - meanu p
                  vp := some fun p i => ds.v p i - meanv p
                  wp := some fun p i => ds.w p i - meanw p }
        | _, _ => .error "KeyError"
    | none =>
        .ok { base with
              up := some fun p i => ds.u p i - temporalMean (ds.u p)
              vp := some fun p i => ds.v p i - temporalMean (ds.v p)
              wp := some fun p i => ds.w p i - temporalMean (ds.w p) }
  | false => .ok base

/-- `addDatetime(ds, dt, origin, computemean)` (lines 303-338).  The first
component of the result is the final state of the dataset object passed by
the caller: line 309 assigns the `time` variable into the argument in place
before `rename` produces a fresh object, so the dataset of the caller gains
a `time` variable.  The second component is the returned dataset, or the
raised error. -/
def addDatetime {P : Type} {n : Nat} (ds : SampDS P n) (dt origin : ℚ)
    (computemean : Bool) : SampDS P n × Except String (TimeDS P n) :=
  if dt ≤ 0 then (ds, .error "The dt should be positive.")
  else
    let timeF : Fin n → ℚ := fun i => (ds.samplingtimestep i : ℚ) * dt
    let dsMut : SampDS P n := { ds with time := some timeF }
    (dsMut, addDatetimeResult dsMut timeF origin computemean)

/-- The three means `addDatetime` consumes when `computemean` is set: the
precomputed per-chunk means when present, otherwise the temporal means of
u, v, w over the time dimension. -/
def consumedMeans {P : Type} {n : Nat} (ds : SampDS P n) :
    (P → ℚ) × (P → ℚ) × (P → ℚ) :=
  match ds.umean, ds.vmean, ds.wmean with
  | some mu, some mv, some mw => (mu, mv, mw)
  | _, _, _ =>
      (fun p => temporalMean (ds.u p), fun p => temporalMean (ds.v p),
       fun p => temporalMean (ds.w p))

/-- C4 amended: for every dataset returned by `addDatetime` with the mean
computation enabled, the fluctuation-field law holds with the means the
call actually consumed: `up + m_u = u`, `vp + m_v = v`, `wp + m_w = w` at
every grid point and time, where `(m_u, m_v, m_w)` are the precomputed
per-chunk means when those were present (and consumed instead of
recomputed) and the temporal means of u, v, w otherwise; in particular,
when no precomputed means are present the law holds with the temporal mean
exactly. -/
theorem fluctuation_field_law {P : Type} {n : Nat} (ds : SampDS P n)
    (dt origin : ℚ) (h : 0 < dt) (out : TimeDS P n)
    (hout : (addDatetime ds dt origin true).2 = .ok out) :
    ∃ fu fv fw, out.up = some fu ∧ out.vp = some fv ∧ out.wp = some fw ∧
      ∀ p i, fu p i + (consumedMeans ds).1 p = out.u p i
        ∧ fv p i + (consumedMeans ds).2.1 p = out.v p i
        ∧ fw p i + (consumedMeans ds).2.2 p = out.w p i := by
  unfold addDatetime at hout
  rw [if_neg (not_le.mpr h)] at hout
  unfold addDatetimeResult at hout
  dsimp only at hout
  cases hu : ds.umean with
  | none =>
      rw [hu] at hout
      dsimp only at hout
      rw [Except.ok.injEq] at hout
      subst hout
      refine ⟨_, _, _, rfl, rfl, rfl, ?_⟩
      intro p i
      cases hv : ds.vmean <;> cases hw : ds.wmean <;>
        simp only [consumedMeans, hu, hv, hw] <;>
        exact ⟨by ring, by ring, by ring⟩
  | some mu =>
      rw [hu] at hout
      dsimp only at hout
      cases hv : ds.vmean with
      | none =>
          rw [hv] at hout
          cases hw : ds.wmean <;> rw [hw] at hout <;> dsimp only at hout <;>
            simp at hout
      | some mv =>
          rw [hv] at hout
          cases hw : ds.wmean with
          | none =>
              rw [hw] at hout
              dsimp only at hout
              simp at hout
          | some mw =>
              rw [hw] at hout
              dsimp only at hout
              rw [Except.ok.injEq] at hout
              subst hout
              refine ⟨_, _, _, rfl, rfl, rfl, ?_⟩
              intro p i
              simp only [consumedMeans, hu, hv, hw]
              exact ⟨by ring, by ring, by ring⟩

/-- A concrete dataset without precomputed means used to witness the
fluctuation-field law: one spatial point and one time step. -/
def witDS : SampDS Unit 1 :=
  { u := fun _ _ => 3, v := fun _ _ => 4, w := fun _ _ => 5
    umean := none, vmean := none, wmean := none
    samplingtimestep := fun _ => 0, time := none }

/-- The dataset `addDatetime witDS 1 0 true` returns. -/
def witOut : TimeDS Unit 1 :=
  { u := witDS.u, v := witDS.v, w := witDS.w
    time := fun i => (witDS.samplingtimestep i : ℚ) * 1
    datetime := fun i => 0 + (witDS.samplingtimestep i : ℚ) * 1
    samplingtimestep := witDS.samplingtimestep
    up := some fun p i => witDS.u p i - temporalMean (witDS.u p)
    vp := some fun p i => witDS.v p i - temporalMean (witDS.v p)
    wp := some fun p i => witDS.w p i - temporalMean (witDS.w p)
    umean := none, vmean := none, wmean := none }

/-- Witness for C4 amended: the fluctuation-field law evaluated on the
concrete dataset `witDS` with `dt = 1`. -/
theorem fluctuation_field_law_witness :
    ∃ fu fv fw, witOut.up = some fu ∧ witOut.vp = some fv ∧ witOut.wp = some fw ∧
      ∀ p i, fu p i + (consumedMeans witDS).1 p = witOut.u p i
        ∧ fv p i + (consumedMeans witDS).2.1 p = witOut.v p i
        ∧ fw p i + (consumedMeans witDS).2.2 p = witOut.w p i :=
  fluctuation_field_law witDS 1 0 (by norm_num) witOut (by
    unfold addDatetime addDatetimeResult
    rw [if_neg (by norm_num : ¬ ((1 : ℚ) ≤ 0))]
    rfl)

/-- A concrete dataset whose precomputed chunk mean differs from the
temporal mean of u: one spatial point, one time step, u = v = w = 0
everywhere, umean = 5, vmean = wmean = 0, and no `time` variable. -/
def cexDS : SampDS Unit 1 :=
  { u := fun _ _ => 0, v := fun _ _ => 0, w := fun _ _ => 0
    umean := some fun _ => 5
    vmean := some fun _ => 0
    wmean := some fun _ => 0
    samplingtimestep := fun _ => 0, time := none }

/-- The dataset `addDatetime cexDS 1 0 true` returns. -/
def cexOut : TimeDS Unit 1 :=
  { u := cexDS.u, v := cexDS.v, w := cexDS.w
    time := fun i => (cexDS.samplingtimestep i : ℚ) * 1
    datetime := fun i => 0 + (cexDS.samplingtimestep i : ℚ) * 1
    samplingtimestep := cexDS.samplingtimestep
    up := some fun p i => cexDS.u p i - 5
    vp := some fun p i => cexDS.v p i - 0
    wp := some fun p i => cexDS.w p i - 0
    umean := none, vmean := none, wmean := none }

/-- C4 counterexample: on `cexDS` the precomputed mean umean = 5 is consumed
instead of being recomputed, while the temporal mean of u is 0; the claimed
law `up + mean(u) = u` with `mean` the temporal mean then fails at the only
grid point and time: up = -5 there while u = 0. -/
theorem fluctuation_temporal_mean_cex :
    (addDatetime cexDS 1 0 true).2 = .ok cexOut ∧
      ∃ fu, cexOut.up = some fu ∧
        ¬ (fu () 0 + temporalMean (cexDS.u ()) = cexOut.u () 0) := by
  refine ⟨?_, fun p i => cexDS.u p i - 5, rfl, ?_⟩
  · unfold addDatetime addDatetimeResult
    rw [if_neg (by norm_num : ¬ ((1 : ℚ) ≤ 0))]
    rfl
  · simp [cexDS, cexOut, temporalMean]

/-- C5 counterexample: `addDatetime` is not a pure transform: called on
`cexDS`, whose `time` variable is absent, it assigns a `time` variable into
the argument object in place, so the dataset of the caller is changed by
the call. -/
theorem addDatetime_mutates_input_cex :
    (addDatetime cexDS 1 0 true).1 ≠ cexDS := by
  intro heq
  have ht := congrArg SampDS.time heq
  unfold addDatetime at ht
  rw [if_neg (by norm_num : ¬ ((1 : ℚ) ≤ 0))] at ht
  simp [cexDS] at ht

/-- C5 amended: for every input dataset and dt > 0, the only change
`addDatetime` makes to the dataset of the caller is the in-place assignment
of the `time` variable (physical time = samplingtimestep * dt); every other
field of the input object is unchanged, and the returned dataset is a
separate new value. -/
theorem addDatetime_mutation_only_time {P : Type} {n : Nat} (ds : SampDS P n)
    (dt origin : ℚ) (computemean : Bool) (h : 0 < dt) :
    (addDatetime ds dt origin computemean).1
      = { ds with time := some fun i => (ds.samplingtimestep i : ℚ) * dt } := by
  unfold addDatetime
  rw [if_neg (not_le.mpr h)]

/-- Witness for C5 amended at `cexDS` with `dt = 1`. -/
theorem addDatetime_mutation_only_time_witness :
    (addDatetime cexDS 1 0 true).1
      = { cexDS with time := some fun i => (cexDS.samplingtimestep i : ℚ) * 1 } :=
  addDatetime_mutation_only_time cexDS 1 0 true (by norm_num)

/-! ## to_vtk (lines 242-299) -/

/-- The VTK file written for time index t:
`os.path.join(outputPath, "Amb.t" + t + ".vtk")`. -/
def vtkFileName (outputPath : String) (t : Nat) : String :=
  outputPath ++ "/Amb.t" ++ toString t ++ ".vtk"

/-- The file-creating behaviour of `to_vtk` (lines 242-299): the existence
check on `outputPath` is the first statement of the function, so a missing
path raises `ValueError` before anything is read or written; otherwise the
time bound `itime_f = -1` resolves to the number of time steps and one VTK
file is written per selected time step.  `pathExists` models
`os.path.exists`; the ok result lists the files written, in order. -/
def to_vtk (pathExists : String → Bool) (outputPath : String) (ndt : Nat)
    (itime_i : Nat) (itime_f : Int) : Except String (List String) :=
  if pathExists outputPath = false then
    .error "The output path should exist. Stopping."
  else
    let itf : Nat := if itime_f = -1 then ndt else itime_f.toNat
    .ok ((List.range' itime_i (itf - itime_i)).map (vtkFileName outputPath))

/-- C9: for every dataset and time range, calling `to_vtk` with an output
path that does not exist raises `ValueError` before any file is created or
written: the result is exactly the error, and no file name is produced. -/
theorem to_vtk_missing_path (pathExists : String → Bool) (outputPath : String)
    (ndt itime_i : Nat) (itime_f : Int) (h : pathExists outputPath = false) :
    to_vtk pathExists outputPath ndt itime_i itime_f
      = .error "The output path should exist. Stopping." := by
  unfold to_vtk
  rw [if_pos h]

/-- Witness for C9 on a file system with no paths at all. -/
theorem to_vtk_missing_path_witness :
    to_vtk (fun _ => false) "processedData/HighT1" 5 0 (-1)
      = .error "The output path should exist. Stopping." :=
  to_vtk_missing_path (fun _ => false) "processedData/HighT1" 5 0 (-1) rfl

end Windtools
